import Mathlib

/-!
# Shallow embedding of the midir TUI device-connection manager (src/src/main.rs)

The program is a terminal UI over the `midir` MIDI driver.  The parts the
claims are about — device discovery/sorting, the identity-keyed connection
maps, the toggle/close-all operations, the bounded status/message log,
refresh, and best-effort session persistence — are embedded below as pure
Lean functions over explicit state.

External effects are made explicit parameters:
* the MIDI driver (`Driver`): the port lists it would report at the moment
  of a query (`inPorts`/`outPorts`, an element is `none` when `port_name`
  fails and the code falls back to a synthetic name), whether
  `MidiInput::new`/`MidiOutput::new` succeeds (`initOk`), and whether
  `connect` on a given port index succeeds (`inConnectOk`/`outConnectOk`);
* wall-clock instants (`Instant`) as abstract `Nat` ticks;
* the filesystem read and the JSON decoder for persisted state, as
  functions returning `Option` (mirroring `.ok()` on the Rust `Result`s);
* the mpsc channel contents drained by a tick, as a `List String`.

`HashMap<DeviceKey, _>` is modelled as an association list with hash-map
semantics (`mapInsert` replaces, `mapRemove` deletes); a connection handle
is opaque (no observable state), modelled as `Unit`.  `VecDeque<String>`
with capacity 1024 is a `List String` (front = oldest) with the capacity
as the constant `LOG_CAP` (`with_capacity(1024)`; every push is guarded so
the buffer never grows past it).  Rust's stable `slice::sort_by` is
modelled by Mathlib's `List.insertionSort`, which is likewise a stable
sort by the given relation.
-/

inductive Focus where
  | Left
  | Right
deriving DecidableEq, Repr

inductive MidiKind where
  | Input
  | Output
deriving DecidableEq, Repr

structure DeviceKey where
  name : String
  kind : MidiKind
deriving DecidableEq, Repr

structure DeviceItem where
  key : DeviceKey
  index : Nat  -- index within its kind (as provided by midir at collection time)
deriving DecidableEq, Repr

structure Persisted where
  last_device : Option DeviceKey := none
  last_focus : Option Focus := none
deriving DecidableEq, Repr

/-- The driver state visible to the program at the moment of one query:
`MidiInput::new`/`MidiOutput::new` success, the current port lists
(an entry is the port's name, `none` when `port_name` fails), and
whether `connect` succeeds on a given port index. -/
structure Driver where
  initOk : Bool
  inPorts : List (Option String)
  outPorts : List (Option String)
  inConnectOk : Nat → Bool
  outConnectOk : Nat → Bool

/-- Model of `HashMap<DeviceKey, Connection>` as an association list; the connection
handle is opaque, so the value type is `Unit`. -/
abbrev ConnMap := List (DeviceKey × Unit)

/-- Model of `HashMap::remove` (the value, dropped by the caller, is not returned). -/
def mapRemove (k : DeviceKey) (m : ConnMap) : ConnMap :=
  m.filter (fun p => !decide (p.1 = k))

/-- Model of `HashMap::insert` (replaces any existing entry for the key). -/
def mapInsert (k : DeviceKey) (v : Unit) (m : ConnMap) : ConnMap :=
  (k, v) :: mapRemove k m

/-- Model of `HashMap::contains_key` / `remove(..).is_some()`. -/
def mapContains (k : DeviceKey) (m : ConnMap) : Bool :=
  m.any (fun p => decide (p.1 = k))

/-- The fixed log capacity from `VecDeque::with_capacity(1024)`. -/
def LOG_CAP : Nat := 1024

/-- The push pattern shared by `push_status` and `drain_rx`:
`if self.log.len() == self.log.capacity() { self.log.pop_front(); }
 self.log.push_back(s);` -/
def logPush (log : List String) (s : String) : List String :=
  (if log.length = LOG_CAP then log.tail else log) ++ [s]

/-- Model of `Iterator::position` on a list. -/
def position (p : α → Bool) : List α → Option Nat
  | [] => none
  | x :: xs => if p x then some 0 else (position p xs).map (· + 1)

/-- The `App` state (`struct App`), minus the fields with no bearing on the
claims' behaviour: `persist_path` is passed to the persistence functions
explicitly, and the channel endpoints `tx`/`rx` are replaced by passing the
drained messages to `drain_rx` explicitly.  `last_refresh : Instant` is an
abstract tick count. -/
structure App where
  devices : List DeviceItem
  selected : Nat
  focus : Focus
  last_refresh : Nat
  in_conns : ConnMap
  out_conns : ConnMap
  log : List String
deriving Repr

namespace App

/-- Model of `App::push_status`. -/
def push_status (a : App) (msg : String) : App :=
  { a with log := logPush a.log ("· " ++ msg) }

/-- Model of `App::drain_rx`; `msgs` is the queue contents this tick's
`try_recv` loop drains, oldest first. -/
def drain_rx (a : App) (msgs : List String) : App :=
  { a with log := msgs.foldl logPush a.log }

/-- Model of `App::select_up`. -/
def select_up (a : App) : App :=
  if a.devices.isEmpty then a
  else if a.selected = 0 then { a with selected := a.devices.length - 1 }
  else { a with selected := a.selected - 1 }

/-- Model of `App::select_down`. -/
def select_down (a : App) : App :=
  if a.devices.isEmpty then a
  else { a with selected := (a.selected + 1) % a.devices.length }

/-- Model of `App::close_all`. -/
def close_all (a : App) : App :=
  let in_count := a.in_conns.length
  let out_count := a.out_conns.length
  ({ a with in_conns := [], out_conns := [] }).push_status
    ("Closed all ports (inputs: " ++ toString in_count ++
      ", outputs: " ++ toString out_count ++ ")")

/-- Model of `App::open_input`.  A fresh `MidiInput` is created (`d.initOk`), its
fresh port list is indexed by the item's stored positional index
(`ports.get(dev.index)` — `Err` when out of range), the port name read
with the synthetic fallback, and `connect` attempted.  Error strings are
the `context`/`with_context` messages (the inner driver error is
external). -/
def open_input (a : App) (d : Driver) (dev : DeviceItem) : Except String App :=
  if d.initOk then
    match d.inPorts.get? dev.index with
    | none => .error "input port index out of range"
    | some pn =>
      let port_name := pn.getD ("Input #" ++ toString dev.index)
      if d.inConnectOk dev.index then
        .ok (({ a with in_conns := mapInsert dev.key () a.in_conns
              }).push_status ("Opened input: " ++ port_name))
      else .error ("Failed to open input: " ++ port_name)
  else .error "create MidiInput failed"

/-- Model of `App::open_output`, mirroring `open_input`. -/
def open_output (a : App) (d : Driver) (dev : DeviceItem) : Except String App :=
  if d.initOk then
    match d.outPorts.get? dev.index with
    | none => .error "output port index out of range"
    | some pn =>
      let port_name := pn.getD ("Output #" ++ toString dev.index)
      if d.outConnectOk dev.index then
        .ok (({ a with out_conns := mapInsert dev.key () a.out_conns
              }).push_status ("Opened output: " ++ port_name))
      else .error ("Failed to open output: " ++ port_name)
  else .error "create MidiOutput failed"

/-- Model of `App::toggle_open_selected`.  `d` is the driver state at toggle time
(its port lists are the freshly queried ones seen by `open_input`/
`open_output`).  The `none` arm of the index lookup is unreachable: the
source indexes `self.devices[self.selected]` after the emptiness guard,
and `selected` is in range whenever `devices` is nonempty. -/
def toggle_open_selected (a : App) (d : Driver) : Except String App :=
  if a.devices.isEmpty then .ok a
  else
    match a.devices.get? a.selected with
    | none => .ok a
    | some dev =>
      match dev.key.kind with
      | .Input =>
        if mapContains dev.key a.in_conns then
          .ok (({ a with in_conns := mapRemove dev.key a.in_conns
                }).push_status ("Closed input: " ++ dev.key.name))
        else a.open_input d dev
      | .Output =>
        if mapContains dev.key a.out_conns then
          .ok (({ a with out_conns := mapRemove dev.key a.out_conns
                }).push_status ("Closed output: " ++ dev.key.name))
        else a.open_output d dev

end App

/-- Rank `0` for `Input`, `1` for `Output`: the order the sort comparator puts
the kinds in. -/
def kindNum : MidiKind → Nat
  | .Input => 0
  | .Output => 1

/-- Model of `str::to_lowercase` (per-character case folding; written as a direct
map over the character data so the kernel can evaluate it on concrete
names). -/
def lowerStr (s : String) : String := ⟨s.data.map Char.toLower⟩

/-- The case-insensitive sort name: `d.key.name.to_lowercase()`. -/
def lowerName (d : DeviceItem) : String := lowerStr d.key.name

/-- The comparator passed to `items.sort_by` in `collect_devices`:
inputs before outputs; within a kind, lowercased-name string order. -/
def devCmp (a b : DeviceItem) : Ordering :=
  match a.key.kind, b.key.kind with
  | .Input, .Output => .lt
  | .Output, .Input => .gt
  | _, _ => compare (lowerName a) (lowerName b)

/-- The relation a stable `sort_by devCmp` sorts by: comparator not
`Greater`. -/
def devLE (a b : DeviceItem) : Prop := devCmp a b ≠ Ordering.gt

instance : DecidableRel devLE := fun a b =>
  inferInstanceAs (Decidable ¬(devCmp a b = Ordering.gt))

/-- The items `collect_devices` pushes for the input ports, in driver
order, with the synthetic fallback name for an unreadable port name. -/
def inputItems (d : Driver) : List DeviceItem :=
  d.inPorts.enum.map fun p =>
    { key := { name := p.2.getD ("Input #" ++ toString p.1), kind := .Input },
      index := p.1 }

/-- The items `collect_devices` pushes for the output ports. -/
def outputItems (d : Driver) : List DeviceItem :=
  d.outPorts.enum.map fun p =>
    { key := { name := p.2.getD ("Output #" ++ toString p.1), kind := .Output },
      index := p.1 }

/-- Model of `collect_devices`: fails only when the driver subsystem cannot be
initialized; otherwise inputs then outputs, stably sorted by `devCmp`
(Rust's `sort_by` is stable, as is `List.insertionSort`). -/
def collect_devices (d : Driver) : Except String (List DeviceItem) :=
  if d.initOk then
    .ok (List.insertionSort devLE (inputItems d ++ outputItems d))
  else .error "Failed to create MidiInput"

namespace App

/-- Model of `App::refresh_devices`: on discovery failure (`if let Ok(devs)` fails)
nothing at all happens; on success the list is replaced, the old selected
identity re-matched by position, and the refresh instant recorded. -/
def refresh_devices (a : App) (d : Driver) (now : Nat) : App :=
  match collect_devices d with
  | .error _ => a
  | .ok devs =>
    let old_key := (a.devices.get? a.selected).map (·.key)
    let selected :=
      match old_key with
      | some key =>
        match position (fun it => decide (it.key = key)) devs with
        | some pos => pos
        | none => 0
      | none => 0
    { a with devices := devs, selected := selected, last_refresh := now }

end App

/-- An opaque filesystem path (`PathBuf`). -/
abbrev FsPath := String

/-- Opaque file contents (`Vec<u8>`). -/
abbrev Bytes := List UInt8

/-- Model of `load_persisted`: `path.as_ref()?`, `fs::read(p).ok()?`,
`serde_json::from_slice(..).ok()`.  `fsRead` models the filesystem
(`none` = missing/unreadable file), `parseJson` the decoder (`none` =
malformed contents). -/
def load_persisted (path : Option FsPath) (fsRead : FsPath → Option Bytes)
    (parseJson : Bytes → Option Persisted) : Option Persisted :=
  path.bind fun p => (fsRead p).bind parseJson

/-- Model of `App::new`: best-effort load (`unwrap_or_default`), discovery (`?`
propagates only `DiscoveryError`), selection restored by identity when
present, fresh empty maps and log. -/
def App.new (d : Driver) (path : Option FsPath) (fsRead : FsPath → Option Bytes)
    (parseJson : Bytes → Option Persisted) : Except String App :=
  let persisted := (load_persisted path fsRead parseJson).getD {}
  match collect_devices d with
  | .error e => .error e
  | .ok devices =>
    let selected :=
      match persisted.last_device with
      | some key =>
        match position (fun it => decide (it.key = key)) devices with
        | some pos => pos
        | none => 0
      | none => 0
    .ok { devices := devices, selected := selected,
          focus := persisted.last_focus.getD Focus.Left,
          last_refresh := 0,
          in_conns := [], out_conns := [], log := [] }

/-- The `Enter` arm of `run_app`'s key handler: toggle only when the left
pane has focus; a toggle error is caught and pushed as a distinctly
prefixed status entry (`format!("Error: {e:#}")`).  No state mutation
precedes any error inside the toggle, so the status lands on the
untouched state. -/
def handleEnter (a : App) (d : Driver) : App :=
  if a.focus = Focus.Left then
    match a.toggle_open_selected d with
    | .ok a2 => a2
    | .error e => a.push_status ("Error: " ++ e)
  else a

/-- The user/tick operations `run_app` can apply to the `App` state. -/
inductive Op where
  | enter (d : Driver)
  | closeAll
  | refresh (d : Driver) (now : Nat)
  | selUp
  | selDown
  | drain (msgs : List String)
  | setFocus (f : Focus)

/-- One step of `run_app`'s event loop acting on the `App` state. -/
def step (a : App) : Op → App
  | .enter d => handleEnter a d
  | .closeAll => a.close_all
  | .refresh d now => a.refresh_devices d now
  | .selUp => a.select_up
  | .selDown => a.select_down
  | .drain msgs => a.drain_rx msgs
  | .setFocus f => { a with focus := f }

/-- Running a sequence of operations. -/
def run (a : App) (ops : List Op) : App := ops.foldl step a

/-! ## Helper lemmas on the map and log models -/

theorem mapRemove_sublist (k : DeviceKey) (m : ConnMap) :
    List.Sublist (mapRemove k m) m :=
  List.filter_sublist m

theorem mem_mapRemove {k : DeviceKey} {m : ConnMap} {p : DeviceKey × Unit}
    (h : p ∈ mapRemove k m) : p ∈ m ∧ p.1 ≠ k := by
  have := List.mem_filter.mp h
  simpa using this

theorem mapContains_eq_false_iff {k : DeviceKey} {m : ConnMap} :
    mapContains k m = false ↔ ∀ p ∈ m, p.1 ≠ k := by
  simp [mapContains, List.any_eq_false]

theorem mapRemove_eq_self {k : DeviceKey} {m : ConnMap}
    (h : mapContains k m = false) : mapRemove k m = m := by
  rw [mapRemove, List.filter_eq_self]
  intro p hp
  simpa using (mapContains_eq_false_iff.mp h) p hp

theorem mapContains_mapInsert_self (k : DeviceKey) (v : Unit) (m : ConnMap) :
    mapContains k (mapInsert k v m) = true := by
  simp [mapContains, mapInsert]

theorem mapRemove_mapInsert (k : DeviceKey) (v : Unit) {m : ConnMap}
    (h : mapContains k m = false) :
    mapRemove k (mapInsert k v m) = m := by
  have hm := mapRemove_eq_self h
  rw [mapInsert, hm, mapRemove, List.filter_cons]
  simp only [decide_eq_true_eq, Bool.not_eq_eq_eq_not, Bool.not_true,
    decide_eq_false_iff_not, not_not]
  rw [if_neg (by simp)]
  rw [← mapRemove, hm]

/-- At most one entry per key: the keys of the association-list map are
pairwise distinct. -/
def keysNodup (m : ConnMap) : Prop := (m.map Prod.fst).Nodup

theorem keysNodup_nil : keysNodup [] := List.nodup_nil

theorem keysNodup_mapRemove (k : DeviceKey) {m : ConnMap} (h : keysNodup m) :
    keysNodup (mapRemove k m) :=
  ((mapRemove_sublist k m).map Prod.fst).nodup h

theorem keysNodup_mapInsert (k : DeviceKey) (v : Unit) {m : ConnMap}
    (h : keysNodup m) : keysNodup (mapInsert k v m) := by
  rw [keysNodup, mapInsert, List.map_cons, List.nodup_cons]
  refine ⟨?_, keysNodup_mapRemove k h⟩
  intro hk
  obtain ⟨p, hp, hpk⟩ := List.mem_map.mp hk
  exact (mem_mapRemove hp).2 hpk

theorem logPush_length_le {log : List String} (s : String)
    (h : log.length ≤ LOG_CAP) : (logPush log s).length ≤ LOG_CAP := by
  rw [logPush]
  by_cases hc : log.length = LOG_CAP
  · rw [if_pos hc]
    cases log with
    | nil => simp [LOG_CAP] at hc
    | cons x xs =>
      simp only [List.tail_cons, List.length_append, List.length_cons,
        List.length_nil]
      simp only [List.length_cons] at hc
      omega
  · rw [if_neg hc]
    simp only [List.length_append, List.length_cons, List.length_nil]
    omega

theorem foldl_logPush_length_le {log : List String} (msgs : List String)
    (h : log.length ≤ LOG_CAP) : (msgs.foldl logPush log).length ≤ LOG_CAP := by
  induction msgs generalizing log with
  | nil => exact h
  | cons m ms ih => exact ih (logPush_length_le m h)

theorem refresh_in_conns_eq (a : App) (d : Driver) (now : Nat) :
    (a.refresh_devices d now).in_conns = a.in_conns := by
  unfold App.refresh_devices
  cases collect_devices d <;> simp

theorem refresh_out_conns_eq (a : App) (d : Driver) (now : Nat) :
    (a.refresh_devices d now).out_conns = a.out_conns := by
  unfold App.refresh_devices
  cases collect_devices d <;> simp

/-! ## Claim theorems -/

/-- C6: for every refresh of the device list, both connection maps are
unchanged regardless of how the selection changes; in particular an open
connection whose device no longer appears in the new discovery list stays
in its map. -/
theorem C6_refresh_preserves_connections (a : App) (d : Driver) (now : Nat) :
    (a.refresh_devices d now).in_conns = a.in_conns ∧
    (a.refresh_devices d now).out_conns = a.out_conns :=
  ⟨refresh_in_conns_eq a d now, refresh_out_conns_eq a d now⟩

/-- C8: `close_all` leaves both connection maps empty and emits exactly one
summary status entry containing the prior input and output counts, also
when both maps are already empty. -/
theorem C8_close_all_spec (a : App) :
    (a.close_all).in_conns = [] ∧ (a.close_all).out_conns = [] ∧
    (a.close_all).log =
      logPush a.log ("· " ++ ("Closed all ports (inputs: " ++
        toString a.in_conns.length ++ ", outputs: " ++
        toString a.out_conns.length ++ ")")) :=
  ⟨rfl, rfl, rfl⟩

/-- C10: if re-discovery fails during a mid-run refresh, the whole
application state — device list, selection, last-refresh instant, both
connection maps and the log — is exactly as before, and no error entry is
emitted. -/
theorem C10_refresh_failure_noop (a : App) (d : Driver) (now : Nat)
    (e : String) (h : collect_devices d = .error e) :
    a.refresh_devices d now = a := by
  unfold App.refresh_devices
  rw [h]

/-- A driver whose MIDI subsystem cannot be initialized. -/
def noDriver : Driver :=
  { initOk := false, inPorts := [], outPorts := [],
    inConnectOk := fun _ => false, outConnectOk := fun _ => false }

/-- The `("Beta", Input)` item at positional index 0. -/
def betaItem : DeviceItem := { key := { name := "Beta", kind := .Input }, index := 0 }

/-- A sample state with one input device, selected, nothing open. -/
def appBeta : App :=
  { devices := [betaItem], selected := 0, focus := .Left, last_refresh := 0,
    in_conns := [], out_conns := [], log := [] }

theorem C10_refresh_failure_noop_witness :
    appBeta.refresh_devices noDriver 7 = appBeta :=
  C10_refresh_failure_noop appBeta noDriver 7 "Failed to create MidiInput" rfl


theorem position_eq_none {p : α → Bool} {l : List α} :
    position p l = none ↔ ∀ x ∈ l, p x = false := by
  induction l with
  | nil => simp [position]
  | cons y ys ih =>
    cases hy : p y with
    | true => simp [position, hy]
    | false => simp [position, hy, Option.map_eq_none', ih, List.forall_mem_cons]

theorem position_spec {p : α → Bool} {l : List α} {pos : Nat}
    (h : position p l = some pos) :
    ∃ x, l.get? pos = some x ∧ p x = true := by
  induction l generalizing pos with
  | nil => simp [position] at h
  | cons y ys ih =>
    cases hy : p y with
    | true =>
      simp [position, hy] at h
      exact ⟨y, by simp [← h], hy⟩
    | false =>
      simp only [position, hy, Bool.false_eq_true, if_false,
        Option.map_eq_some'] at h
      obtain ⟨q, hq, hqe⟩ := h
      obtain ⟨x, hx, hpx⟩ := ih hq
      refine ⟨x, ?_, hpx⟩
      simp only [← hqe]
      simpa using hx

theorem refresh_devices_ok {a : App} {d : Driver} {now : Nat}
    {devs : List DeviceItem} (hc : collect_devices d = .ok devs) :
    a.refresh_devices d now =
      { a with
          devices := devs,
          selected :=
            (match (a.devices.get? a.selected).map (·.key) with
             | some key =>
               (match position (fun it => decide (it.key = key)) devs with
                | some pos => pos
                | none => 0)
             | none => 0),
          last_refresh := now } := by
  unfold App.refresh_devices
  rw [hc]

/-- C5: on a refresh, if the previously selected device's identity is in
the new list, the selection moves to that identity's position in the new
list; otherwise it becomes 0; and when the new list is empty the selection
(still index 0) designates no device. -/
theorem C5_refresh_selection (a : App) (d : Driver) (now : Nat)
    (devs : List DeviceItem) (dev : DeviceItem)
    (hget : a.devices.get? a.selected = some dev)
    (hc : collect_devices d = .ok devs) :
    (a.refresh_devices d now).devices = devs ∧
    ((∃ it ∈ devs, it.key = dev.key) →
      ∃ it, devs.get? (a.refresh_devices d now).selected = some it ∧
        it.key = dev.key) ∧
    ((∀ it ∈ devs, it.key ≠ dev.key) → (a.refresh_devices d now).selected = 0) ∧
    (devs = [] →
      (a.refresh_devices d now).devices.get?
        (a.refresh_devices d now).selected = none) := by
  rw [refresh_devices_ok hc]
  simp only [hget, Option.map_some']
  cases hpos : position (fun it => decide (it.key = dev.key)) devs with
  | some pos =>
    refine ⟨by simp, ?_, ?_, ?_⟩
    · intro _
      obtain ⟨x, hx, hpx⟩ := position_spec hpos
      exact ⟨x, by simpa using hx, by simpa using hpx⟩
    · intro hall
      have hnone : position (fun it => decide (it.key = dev.key)) devs = none :=
        position_eq_none.mpr (fun x hx => by simpa using hall x hx)
      rw [hnone] at hpos
      cases hpos
    · intro he
      subst he
      simp [position] at hpos
  | none =>
    refine ⟨by simp, ?_, ?_, ?_⟩
    · intro hex
      obtain ⟨it, hmem, hkey⟩ := hex
      have := position_eq_none.mp hpos it hmem
      simp [hkey] at this
    · intro _
      simp
    · intro he
      subst he
      simp

/-- A driver reporting inputs "Alpha" and "Beta" (in that order). -/
def drvAB : Driver :=
  { initOk := true, inPorts := [some "Alpha", some "Beta"], outPorts := [],
    inConnectOk := fun _ => true, outConnectOk := fun _ => true }

/-- The device list `collect_devices drvAB` produces. -/
def devsAB : List DeviceItem :=
  [{ key := { name := "Alpha", kind := .Input }, index := 0 },
   { key := { name := "Beta", kind := .Input }, index := 1 }]

theorem C5_refresh_selection_witness :
    (appBeta.refresh_devices drvAB 9).devices = devsAB :=
  (C5_refresh_selection appBeta drvAB 9 devsAB betaItem rfl rfl).1

/-- One insertion into the log: a status entry (`push_status`, prefixed
"· ") or a drained channel entry (`drain_rx`, stored verbatim). -/
inductive LogIns where
  | status (s : String)
  | msg (s : String)

/-- The string actually stored for an insertion. -/
def insEntry : LogIns → String
  | .status s => "· " ++ s
  | .msg s => s

/-- One insertion applied to the log buffer. -/
def logApply (log : List String) (i : LogIns) : List String :=
  logPush log (insEntry i)

/-- A sequence of insertions applied to the log buffer. -/
def logRun (log : List String) (l : List LogIns) : List String :=
  l.foldl logApply log

theorem logRun_length_le (inss : List LogIns) :
    ∀ log : List String, log.length ≤ LOG_CAP →
      (logRun log inss).length ≤ LOG_CAP := by
  induction inss with
  | nil => exact fun _ h => h
  | cons i is ih =>
    intro log h
    exact ih (logApply log i) (logPush_length_le (insEntry i) h)

/-- C3: under any sequence of insertions (status entries or drained
channel entries) the log never exceeds its capacity of 1024; once full,
each single insertion evicts exactly the oldest entry (FIFO) and keeps
the length at capacity. -/
theorem C3_log_bounded_fifo (log : List String) (inss : List LogIns)
    (hlen : log.length ≤ LOG_CAP) :
    (logRun log inss).length ≤ LOG_CAP ∧
    (log.length = LOG_CAP → ∀ i,
      logApply log i = log.tail ++ [insEntry i] ∧
      (logApply log i).length = LOG_CAP) := by
  refine ⟨logRun_length_le inss log hlen, ?_⟩
  intro hfull i
  have hne : log ≠ [] := by
    intro he
    rw [he] at hfull
    simp [LOG_CAP] at hfull
  constructor
  · rw [logApply, logPush, if_pos hfull]
  · rw [logApply, logPush, if_pos hfull]
    simp only [List.length_append, List.length_tail, List.length_cons,
      List.length_nil]
    have : 0 < log.length := List.length_pos.mpr hne
    omega

/-- A log buffer filled to capacity. -/
def fullLog : List String := List.replicate LOG_CAP "m"

theorem C3_log_bounded_fifo_witness :
    (logRun fullLog [LogIns.status "a"]).length ≤ LOG_CAP ∧
    (logApply fullLog (LogIns.msg "b") = fullLog.tail ++ ["b"] ∧
      (logApply fullLog (LogIns.msg "b")).length = LOG_CAP) :=
  ⟨(C3_log_bounded_fifo fullLog [LogIns.status "a"]
      (by simp [fullLog])).1,
   (C3_log_bounded_fifo fullLog [LogIns.status "a"]
      (by simp [fullLog])).2 (by simp [fullLog]) (LogIns.msg "b")⟩

theorem devices_isEmpty_false {a : App} {dev : DeviceItem}
    (h : a.devices.get? a.selected = some dev) :
    a.devices.isEmpty = false := by
  cases hd : a.devices with
  | nil =>
    rw [hd] at h
    simp at h
  | cons x xs => rfl

theorem open_input_ok {a : App} {d : Driver} {dev : DeviceItem}
    {pn : Option String} (hinit : d.initOk = true)
    (hpn : d.inPorts.get? dev.index = some pn)
    (hconn : d.inConnectOk dev.index = true) :
    a.open_input d dev =
      .ok (({ a with in_conns := mapInsert dev.key () a.in_conns
            }).push_status
        ("Opened input: " ++ pn.getD ("Input #" ++ toString dev.index))) := by
  unfold App.open_input
  rw [hinit, hpn]
  simp [hconn]

theorem open_input_stale {a : App} {d : Driver} {dev : DeviceItem}
    (hinit : d.initOk = true) (hnone : d.inPorts.get? dev.index = none) :
    a.open_input d dev = .error "input port index out of range" := by
  unfold App.open_input
  rw [hinit, hnone]
  simp

theorem open_input_reject {a : App} {d : Driver} {dev : DeviceItem}
    {pn : Option String} (hinit : d.initOk = true)
    (hpn : d.inPorts.get? dev.index = some pn)
    (hconn : d.inConnectOk dev.index = false) :
    a.open_input d dev =
      .error ("Failed to open input: " ++
        pn.getD ("Input #" ++ toString dev.index)) := by
  unfold App.open_input
  rw [hinit, hpn]
  simp [hconn]

theorem open_output_ok {a : App} {d : Driver} {dev : DeviceItem}
    {pn : Option String} (hinit : d.initOk = true)
    (hpn : d.outPorts.get? dev.index = some pn)
    (hconn : d.outConnectOk dev.index = true) :
    a.open_output d dev =
      .ok (({ a with out_conns := mapInsert dev.key () a.out_conns
            }).push_status
        ("Opened output: " ++ pn.getD ("Output #" ++ toString dev.index))) := by
  unfold App.open_output
  rw [hinit, hpn]
  simp [hconn]

theorem open_output_stale {a : App} {d : Driver} {dev : DeviceItem}
    (hinit : d.initOk = true) (hnone : d.outPorts.get? dev.index = none) :
    a.open_output d dev = .error "output port index out of range" := by
  unfold App.open_output
  rw [hinit, hnone]
  simp

theorem open_output_reject {a : App} {d : Driver} {dev : DeviceItem}
    {pn : Option String} (hinit : d.initOk = true)
    (hpn : d.outPorts.get? dev.index = some pn)
    (hconn : d.outConnectOk dev.index = false) :
    a.open_output d dev =
      .error ("Failed to open output: " ++
        pn.getD ("Output #" ++ toString dev.index)) := by
  unfold App.open_output
  rw [hinit, hpn]
  simp [hconn]

theorem toggle_not_open_input {a : App} {d : Driver} {dev : DeviceItem}
    (hget : a.devices.get? a.selected = some dev)
    (hkind : dev.key.kind = .Input)
    (hfree : mapContains dev.key a.in_conns = false) :
    a.toggle_open_selected d = a.open_input d dev := by
  unfold App.toggle_open_selected
  rw [devices_isEmpty_false hget, hget]
  simp [hkind, hfree]

theorem toggle_not_open_output {a : App} {d : Driver} {dev : DeviceItem}
    (hget : a.devices.get? a.selected = some dev)
    (hkind : dev.key.kind = .Output)
    (hfree : mapContains dev.key a.out_conns = false) :
    a.toggle_open_selected d = a.open_output d dev := by
  unfold App.toggle_open_selected
  rw [devices_isEmpty_false hget, hget]
  simp [hkind, hfree]

theorem toggle_close_input {a : App} {d : Driver} {dev : DeviceItem}
    (hget : a.devices.get? a.selected = some dev)
    (hkind : dev.key.kind = .Input)
    (hopen : mapContains dev.key a.in_conns = true) :
    a.toggle_open_selected d =
      .ok (({ a with in_conns := mapRemove dev.key a.in_conns
            }).push_status ("Closed input: " ++ dev.key.name)) := by
  unfold App.toggle_open_selected
  rw [devices_isEmpty_false hget, hget]
  simp [hkind, hopen]

theorem toggle_close_output {a : App} {d : Driver} {dev : DeviceItem}
    (hget : a.devices.get? a.selected = some dev)
    (hkind : dev.key.kind = .Output)
    (hopen : mapContains dev.key a.out_conns = true) :
    a.toggle_open_selected d =
      .ok (({ a with out_conns := mapRemove dev.key a.out_conns
            }).push_status ("Closed output: " ++ dev.key.name)) := by
  unfold App.toggle_open_selected
  rw [devices_isEmpty_false hget, hget]
  simp [hkind, hopen]

/-- The connection map for one kind (`in_conns` for inputs, `out_conns`
for outputs). -/
def connsOf (a : App) : MidiKind → ConnMap
  | .Input => a.in_conns
  | .Output => a.out_conns

/-- The driver-side conditions under which opening the selected device
succeeds: subsystem initialized, positional index in range of the fresh
port list of the device's kind, and `connect` accepted. -/
def openOk (d : Driver) (dev : DeviceItem) : Prop :=
  d.initOk = true ∧
  (dev.key.kind = .Input →
    dev.index < d.inPorts.length ∧ d.inConnectOk dev.index = true) ∧
  (dev.key.kind = .Output →
    dev.index < d.outPorts.length ∧ d.outConnectOk dev.index = true)

/-- C7: for a selected device whose identity has no open connection,
toggling twice (open with driver state `d`, then close with any driver
state `d2`) first inserts exactly one entry for that identity and then
returns both connection maps to their prior state. -/
theorem C7_toggle_roundtrip (a : App) (d d2 : Driver) (dev : DeviceItem)
    (hget : a.devices.get? a.selected = some dev)
    (hfree : mapContains dev.key (connsOf a dev.key.kind) = false)
    (hok : openOk d dev) :
    (a.toggle_open_selected d).map (fun a1 => connsOf a1 dev.key.kind) =
      .ok (mapInsert dev.key () (connsOf a dev.key.kind)) ∧
    ((a.toggle_open_selected d).bind
        (fun a1 => a1.toggle_open_selected d2)).map
        (fun a2 => (a2.in_conns, a2.out_conns)) =
      .ok (a.in_conns, a.out_conns) := by
  obtain ⟨hinit, hin, hout⟩ := hok
  cases hkind : dev.key.kind with
  | Input =>
    obtain ⟨hlt, hconn⟩ := hin hkind
    have hfree' : mapContains dev.key a.in_conns = false := by
      rw [hkind] at hfree
      exact hfree
    have hpn : d.inPorts.get? dev.index = some (d.inPorts.get ⟨dev.index, hlt⟩) :=
      List.get?_eq_get hlt
    have h1 : a.toggle_open_selected d =
        .ok (({ a with in_conns := mapInsert dev.key () a.in_conns
              }).push_status ("Opened input: " ++
          (d.inPorts.get ⟨dev.index, hlt⟩).getD
            ("Input #" ++ toString dev.index))) := by
      rw [toggle_not_open_input hget hkind hfree', open_input_ok hinit hpn hconn]
    set a1 := ({ a with in_conns := mapInsert dev.key () a.in_conns
               }).push_status ("Opened input: " ++
        (d.inPorts.get ⟨dev.index, hlt⟩).getD
          ("Input #" ++ toString dev.index)) with ha1
    have hget1 : a1.devices.get? a1.selected = some dev := hget
    have hopen1 : mapContains dev.key a1.in_conns = true :=
      mapContains_mapInsert_self dev.key () a.in_conns
    have h2 : a1.toggle_open_selected d2 =
        .ok (({ a1 with in_conns := mapRemove dev.key a1.in_conns
              }).push_status ("Closed input: " ++ dev.key.name)) :=
      toggle_close_input hget1 hkind hopen1
    rw [h1]
    constructor
    · simp [Except.map, connsOf, ha1, App.push_status]
    · rw [Except.bind, h2]
      simp only [Except.map]
      simp [ha1, App.push_status, mapRemove_mapInsert dev.key () hfree']
  | Output =>
    obtain ⟨hlt, hconn⟩ := hout hkind
    have hfree' : mapContains dev.key a.out_conns = false := by
      rw [hkind] at hfree
      exact hfree
    have hpn : d.outPorts.get? dev.index = some (d.outPorts.get ⟨dev.index, hlt⟩) :=
      List.get?_eq_get hlt
    have h1 : a.toggle_open_selected d =
        .ok (({ a with out_conns := mapInsert dev.key () a.out_conns
              }).push_status ("Opened output: " ++
          (d.outPorts.get ⟨dev.index, hlt⟩).getD
            ("Output #" ++ toString dev.index))) := by
      rw [toggle_not_open_output hget hkind hfree', open_output_ok hinit hpn hconn]
    set a1 := ({ a with out_conns := mapInsert dev.key () a.out_conns
               }).push_status ("Opened output: " ++
        (d.outPorts.get ⟨dev.index, hlt⟩).getD
          ("Output #" ++ toString dev.index)) with ha1
    have hget1 : a1.devices.get? a1.selected = some dev := hget
    have hopen1 : mapContains dev.key a1.out_conns = true :=
      mapContains_mapInsert_self dev.key () a.out_conns
    have h2 : a1.toggle_open_selected d2 =
        .ok (({ a1 with out_conns := mapRemove dev.key a1.out_conns
              }).push_status ("Closed output: " ++ dev.key.name)) :=
      toggle_close_output hget1 hkind hopen1
    rw [h1]
    constructor
    · simp [Except.map, connsOf, ha1, App.push_status]
    · rw [Except.bind, h2]
      simp only [Except.map]
      simp [ha1, App.push_status, mapRemove_mapInsert dev.key () hfree']

/-- A driver reporting a single input port "Beta". -/
def drvB : Driver :=
  { initOk := true, inPorts := [some "Beta"], outPorts := [],
    inConnectOk := fun _ => true, outConnectOk := fun _ => true }

theorem C7_toggle_roundtrip_witness :
    (appBeta.toggle_open_selected drvB).map
        (fun a1 => connsOf a1 betaItem.key.kind) =
      .ok (mapInsert betaItem.key () (connsOf appBeta betaItem.key.kind)) ∧
    ((appBeta.toggle_open_selected drvB).bind
        (fun a1 => a1.toggle_open_selected noDriver)).map
        (fun a2 => (a2.in_conns, a2.out_conns)) =
      .ok (appBeta.in_conns, appBeta.out_conns) :=
  C7_toggle_roundtrip appBeta drvB noDriver betaItem rfl rfl
    ⟨rfl, fun _ => ⟨by decide, rfl⟩, fun h => nomatch h⟩

/-- C9: loading persisted state is best-effort — a missing path, an
unreadable file, or undecodable contents all yield `none`, in which case
startup uses the default empty state (selection 0, focus Left) and
returns no error; and a persisted `last_device` absent from the current
discovery list leaves the selection at index 0, again with no error. -/
theorem C9_load_best_effort (path : Option FsPath)
    (fsRead : FsPath → Option Bytes) (parseJson : Bytes → Option Persisted)
    (d : Driver) (devs : List DeviceItem)
    (hc : collect_devices d = .ok devs) :
    (load_persisted none fsRead parseJson = none) ∧
    (∀ p, fsRead p = none →
      load_persisted (some p) fsRead parseJson = none) ∧
    (∀ p bs, fsRead p = some bs → parseJson bs = none →
      load_persisted (some p) fsRead parseJson = none) ∧
    (load_persisted path fsRead parseJson = none →
      App.new d path fsRead parseJson =
        .ok { devices := devs, selected := 0, focus := .Left,
              last_refresh := 0, in_conns := [], out_conns := [],
              log := [] }) ∧
    (∀ pst k, load_persisted path fsRead parseJson = some pst →
      pst.last_device = some k → (∀ it ∈ devs, it.key ≠ k) →
      App.new d path fsRead parseJson =
        .ok { devices := devs, selected := 0,
              focus := pst.last_focus.getD .Left, last_refresh := 0,
              in_conns := [], out_conns := [], log := [] }) := by
  refine ⟨rfl, ?_, ?_, ?_, ?_⟩
  · intro p hp
    simp [load_persisted, hp]
  · intro p bs hp hb
    simp [load_persisted, hp, hb]
  · intro hl
    unfold App.new
    rw [hl, hc]
    rfl
  · intro pst k hl hlast hall
    unfold App.new
    rw [hl, hc]
    have hpos : position (fun it => decide (it.key = k)) devs = none :=
      position_eq_none.mpr (fun x hx => by simpa using hall x hx)
    simp [hlast, hpos]

/-- A persisted identity `("Gamma", Input)` not present in discovery. -/
def gammaKey : DeviceKey := { name := "Gamma", kind := .Input }

/-- Persisted state naming the absent device. -/
def pstGamma : Persisted :=
  { last_device := some gammaKey, last_focus := some .Right }

/-- A filesystem whose read succeeds. -/
def readOkFs : FsPath → Option Bytes := fun _ => some []

/-- A decoder producing `pstGamma`. -/
def parseGamma : Bytes → Option Persisted := fun _ => some pstGamma

theorem C9_load_best_effort_witness :
    App.new drvB (some "state.json") readOkFs parseGamma =
      .ok { devices := [betaItem], selected := 0, focus := .Right,
            last_refresh := 0, in_conns := [], out_conns := [],
            log := [] } :=
  (C9_load_best_effort (some "state.json") readOkFs parseGamma drvB
      [betaItem] rfl).2.2.2.2 pstGamma gammaKey rfl rfl (by decide)

/-- Length of the freshly queried port list of one kind. -/
def freshLen (d : Driver) : MidiKind → Nat
  | .Input => d.inPorts.length
  | .Output => d.outPorts.length

/-- Whether the driver accepts `connect` for one kind at one index. -/
def connectOkAt (d : Driver) : MidiKind → Nat → Bool
  | .Input => d.inConnectOk
  | .Output => d.outConnectOk

/-- The error text when the stored positional index is out of range of
the fresh port list (`context("... port index out of range")`). -/
def staleMsg : MidiKind → String
  | .Input => "input port index out of range"
  | .Output => "output port index out of range"

/-- The error text when the driver rejects opening the named port
(`with_context(|| format!("Failed to open ...: {port_name}"))`). -/
def rejectMsg (d : Driver) : MidiKind → Nat → String
  | .Input, i =>
    "Failed to open input: " ++
      ((d.inPorts.get? i).join.getD ("Input #" ++ toString i))
  | .Output, i =>
    "Failed to open output: " ++
      ((d.outPorts.get? i).join.getD ("Output #" ++ toString i))

theorem handleEnter_error {a : App} {d : Driver} {e : String}
    (hfocus : a.focus = Focus.Left)
    (h : a.toggle_open_selected d = .error e) :
    handleEnter a d = a.push_status ("Error: " ++ e) := by
  unfold handleEnter
  rw [hfocus, h]
  simp

theorem handleEnter_ok {a b : App} {d : Driver}
    (hfocus : a.focus = Focus.Left)
    (h : a.toggle_open_selected d = .ok b) :
    handleEnter a d = b := by
  unfold handleEnter
  rw [hfocus, h]
  simp

/-- C1: toggling a not-currently-open device re-validates the stored
positional index against the freshly queried port list of the device's
kind.  If the index is out of range, the toggle fails with the stale-index
error, no connection is attempted, the maps are unchanged, and the Enter
handler records a distinctly marked "Error: …" status entry; likewise a
driver rejection of the open produces the marked error entry and leaves
both maps unchanged (no half-open entries). -/
theorem C1_toggle_failure_handling (a : App) (d : Driver) (dev : DeviceItem)
    (hfocus : a.focus = Focus.Left)
    (hget : a.devices.get? a.selected = some dev)
    (hfree : mapContains dev.key (connsOf a dev.key.kind) = false)
    (hinit : d.initOk = true) :
    (freshLen d dev.key.kind ≤ dev.index →
      a.toggle_open_selected d = .error (staleMsg dev.key.kind) ∧
      handleEnter a d = a.push_status ("Error: " ++ staleMsg dev.key.kind) ∧
      (handleEnter a d).in_conns = a.in_conns ∧
      (handleEnter a d).out_conns = a.out_conns ∧
      (handleEnter a d).log =
        logPush a.log ("· " ++ ("Error: " ++ staleMsg dev.key.kind))) ∧
    (dev.index < freshLen d dev.key.kind →
      connectOkAt d dev.key.kind dev.index = false →
      a.toggle_open_selected d =
        .error (rejectMsg d dev.key.kind dev.index) ∧
      handleEnter a d =
        a.push_status ("Error: " ++ rejectMsg d dev.key.kind dev.index) ∧
      (handleEnter a d).in_conns = a.in_conns ∧
      (handleEnter a d).out_conns = a.out_conns ∧
      (handleEnter a d).log =
        logPush a.log
          ("· " ++ ("Error: " ++ rejectMsg d dev.key.kind dev.index))) := by
  cases hkind : dev.key.kind with
  | Input =>
    have hfree' : mapContains dev.key a.in_conns = false := by
      rw [hkind] at hfree
      exact hfree
    have htog := toggle_not_open_input (d := d) hget hkind hfree'
    constructor
    · intro hlen
      have hnone : d.inPorts.get? dev.index = none :=
        List.get?_eq_none.mpr hlen
      have herr : a.toggle_open_selected d =
          .error (staleMsg MidiKind.Input) := by
        rw [htog, open_input_stale hinit hnone]
        rfl
      have hh := handleEnter_error hfocus herr
      exact ⟨herr, hh, by rw [hh]; rfl, by rw [hh]; rfl, by rw [hh]; rfl⟩
    · intro hlt hconn
      have hpn : d.inPorts.get? dev.index =
          some (d.inPorts.get ⟨dev.index, hlt⟩) := List.get?_eq_get hlt
      have herr : a.toggle_open_selected d =
          .error (rejectMsg d MidiKind.Input dev.index) := by
        rw [htog, open_input_reject hinit hpn hconn, rejectMsg, hpn]
        simp
      have hh := handleEnter_error hfocus herr
      exact ⟨herr, hh, by rw [hh]; rfl, by rw [hh]; rfl, by rw [hh]; rfl⟩
  | Output =>
    have hfree' : mapContains dev.key a.out_conns = false := by
      rw [hkind] at hfree
      exact hfree
    have htog := toggle_not_open_output (d := d) hget hkind hfree'
    constructor
    · intro hlen
      have hnone : d.outPorts.get? dev.index = none :=
        List.get?_eq_none.mpr hlen
      have herr : a.toggle_open_selected d =
          .error (staleMsg MidiKind.Output) := by
        rw [htog, open_output_stale hinit hnone]
        rfl
      have hh := handleEnter_error hfocus herr
      exact ⟨herr, hh, by rw [hh]; rfl, by rw [hh]; rfl, by rw [hh]; rfl⟩
    · intro hlt hconn
      have hpn : d.outPorts.get? dev.index =
          some (d.outPorts.get ⟨dev.index, hlt⟩) := List.get?_eq_get hlt
      have herr : a.toggle_open_selected d =
          .error (rejectMsg d MidiKind.Output dev.index) := by
        rw [htog, open_output_reject hinit hpn hconn, rejectMsg, hpn]
        simp
      have hh := handleEnter_error hfocus herr
      exact ⟨herr, hh, by rw [hh]; rfl, by rw [hh]; rfl, by rw [hh]; rfl⟩

/-- A driver whose subsystem is up but reports no ports at all: the stored
index 0 of `betaItem` is stale relative to this fresh (empty) port list. -/
def drvEmptyPorts : Driver :=
  { initOk := true, inPorts := [], outPorts := [],
    inConnectOk := fun _ => true, outConnectOk := fun _ => true }

theorem C1_toggle_failure_handling_witness :
    appBeta.toggle_open_selected drvEmptyPorts =
      .error (staleMsg betaItem.key.kind) ∧
    handleEnter appBeta drvEmptyPorts =
      appBeta.push_status ("Error: " ++ staleMsg betaItem.key.kind) ∧
    (handleEnter appBeta drvEmptyPorts).in_conns = appBeta.in_conns ∧
    (handleEnter appBeta drvEmptyPorts).out_conns = appBeta.out_conns ∧
    (handleEnter appBeta drvEmptyPorts).log =
      logPush appBeta.log
        ("· " ++ ("Error: " ++ staleMsg betaItem.key.kind)) :=
  (C1_toggle_failure_handling appBeta drvEmptyPorts betaItem rfl rfl rfl
      rfl).1 (by decide)

/-- The per-map at-most-one-connection-per-identity invariant. -/
def ConnInv (a : App) : Prop := keysNodup a.in_conns ∧ keysNodup a.out_conns

theorem open_input_ok_inv {a b : App} {d : Driver} {dev : DeviceItem}
    (h : a.open_input d dev = .ok b) (hi : ConnInv a) : ConnInv b := by
  unfold App.open_input at h
  split at h
  · split at h
    · simp at h
    · split at h
      · have hb := Except.ok.inj h
        subst hb
        exact ⟨keysNodup_mapInsert _ _ hi.1, hi.2⟩
      · simp at h
  · simp at h

theorem open_output_ok_inv {a b : App} {d : Driver} {dev : DeviceItem}
    (h : a.open_output d dev = .ok b) (hi : ConnInv a) : ConnInv b := by
  unfold App.open_output at h
  split at h
  · split at h
    · simp at h
    · split at h
      · have hb := Except.ok.inj h
        subst hb
        exact ⟨hi.1, keysNodup_mapInsert _ _ hi.2⟩
      · simp at h
  · simp at h

theorem toggle_ok_inv {a b : App} {d : Driver}
    (h : a.toggle_open_selected d = .ok b) (hi : ConnInv a) : ConnInv b := by
  unfold App.toggle_open_selected at h
  split at h
  · have hb := Except.ok.inj h
    subst hb
    exact hi
  · split at h
    · have hb := Except.ok.inj h
      subst hb
      exact hi
    · split at h
      · split at h
        · have hb := Except.ok.inj h
          subst hb
          exact ⟨keysNodup_mapRemove _ hi.1, hi.2⟩
        · exact open_input_ok_inv h hi
      · split at h
        · have hb := Except.ok.inj h
          subst hb
          exact ⟨hi.1, keysNodup_mapRemove _ hi.2⟩
        · exact open_output_ok_inv h hi

theorem step_inv {a : App} (op : Op) (hi : ConnInv a) : ConnInv (step a op) := by
  cases op with
  | enter d =>
    show ConnInv (handleEnter a d)
    unfold handleEnter
    split
    · cases htog : a.toggle_open_selected d with
      | ok b => exact toggle_ok_inv htog hi
      | error e => exact hi
    · exact hi
  | closeAll => exact ⟨List.nodup_nil, List.nodup_nil⟩
  | refresh d now =>
    refine ⟨?_, ?_⟩
    · rw [show (step a (Op.refresh d now)).in_conns =
          (a.refresh_devices d now).in_conns from rfl,
        refresh_in_conns_eq]
      exact hi.1
    · rw [show (step a (Op.refresh d now)).out_conns =
          (a.refresh_devices d now).out_conns from rfl,
        refresh_out_conns_eq]
      exact hi.2
  | selUp =>
    show ConnInv a.select_up
    unfold App.select_up
    split
    · exact hi
    · split
      · exact hi
      · exact hi
  | selDown =>
    show ConnInv a.select_down
    unfold App.select_down
    split
    · exact hi
    · exact hi
  | drain msgs => exact hi
  | setFocus f => exact hi

theorem run_inv (ops : List Op) :
    ∀ a : App, ConnInv a → ConnInv (run a ops) := by
  induction ops with
  | nil => exact fun _ h => h
  | cons op ops ih => exact fun a h => ih (step a op) (step_inv op h)

/-- C2: starting from a fresh `App`, every reachable state (under any
sequence of toggles, close-alls, refreshes, selection moves, drains and
focus changes) has at most one open connection per device identity in
each connection map. -/
theorem C2_at_most_one_conn_per_key (d : Driver) (path : Option FsPath)
    (fsRead : FsPath → Option Bytes) (parseJson : Bytes → Option Persisted)
    (a : App) (hnew : App.new d path fsRead parseJson = .ok a)
    (ops : List Op) (k : DeviceKey) :
    ((run a ops).in_conns.map Prod.fst).count k ≤ 1 ∧
    ((run a ops).out_conns.map Prod.fst).count k ≤ 1 := by
  have hi : ConnInv a := by
    unfold App.new at hnew
    split at hnew
    · simp at hnew
    · have hb := Except.ok.inj hnew
      subst hb
      exact ⟨List.nodup_nil, List.nodup_nil⟩
  have hrun := run_inv ops a hi
  exact ⟨List.nodup_iff_count_le_one.mp hrun.1 k,
    List.nodup_iff_count_le_one.mp hrun.2 k⟩

theorem C2_at_most_one_conn_per_key_witness :
    ((run appBeta [Op.enter drvB, Op.closeAll]).in_conns.map
        Prod.fst).count betaItem.key ≤ 1 ∧
    ((run appBeta [Op.enter drvB, Op.closeAll]).out_conns.map
        Prod.fst).count betaItem.key ≤ 1 :=
  C2_at_most_one_conn_per_key drvB none readOkFs parseGamma appBeta rfl
    [Op.enter drvB, Op.closeAll] betaItem.key

theorem devLE_iff (a b : DeviceItem) :
    devLE a b ↔
      (a.key.kind = .Input ∧ b.key.kind = .Output) ∨
      (a.key.kind = b.key.kind ∧ lowerName a ≤ lowerName b) := by
  unfold devLE devCmp
  cases ha : a.key.kind <;> cases hb : b.key.kind
  · simp [compare_le_iff_le]
  · simp
  · simp
  · simp [compare_le_iff_le]

instance : IsTotal DeviceItem devLE where
  total a b := by
    rw [devLE_iff, devLE_iff]
    cases ha : a.key.kind <;> cases hb : b.key.kind
    · simpa using le_total (lowerName a) (lowerName b)
    · simp
    · simp
    · simpa using le_total (lowerName a) (lowerName b)

instance : IsTrans DeviceItem devLE where
  trans a b c hab hbc := by
    rw [devLE_iff] at hab hbc ⊢
    rcases hab with ⟨ha1, hb1⟩ | ⟨hk1, hn1⟩ <;>
      rcases hbc with ⟨hb2, hc2⟩ | ⟨hk2, hn2⟩
    · rw [hb1] at hb2
      exact absurd hb2 (by simp)
    · exact Or.inl ⟨ha1, by rw [← hk2]; exact hb1⟩
    · exact Or.inl ⟨hk1.trans hb2, hc2⟩
    · exact Or.inr ⟨hk1.trans hk2, le_trans hn1 hn2⟩

/-- The sort key the comparator orders by: kind rank then lowercased
name.  Two items tie under `devCmp` exactly when their sort keys agree. -/
def sortKey (x : DeviceItem) : Nat × String := (kindNum x.key.kind, lowerName x)

theorem devLE_of_sortKey_eq {x y : DeviceItem} (h : sortKey x = sortKey y) :
    devLE x y := by
  have h1 : kindNum x.key.kind = kindNum y.key.kind := congrArg Prod.fst h
  have h2 : lowerName x = lowerName y := congrArg Prod.snd h
  rw [devLE_iff]
  right
  constructor
  · cases hx : x.key.kind <;> cases hy : y.key.kind <;>
      simp [kindNum, hx, hy] at h1 ⊢
  · exact le_of_eq h2

theorem pairwise_of_all {R : α → α → Prop} :
    ∀ {l : List α}, (∀ x ∈ l, ∀ y ∈ l, R x y) → l.Pairwise R := by
  intro l
  induction l with
  | nil => exact fun _ => List.Pairwise.nil
  | cons x xs ih =>
    intro h
    refine List.Pairwise.cons ?_ (ih ?_)
    · exact fun y hy =>
        h x (List.mem_cons_self x xs) y (List.mem_cons_of_mem _ hy)
    · exact fun u hu v hv =>
        h u (List.mem_cons_of_mem _ hu) v (List.mem_cons_of_mem _ hv)

/-- Stability of the sort: within each tie class (equal sort key) the
sorted list keeps exactly the original sequence of items. -/
theorem insertionSort_filter_key (items : List DeviceItem) (k : Nat × String) :
    (List.insertionSort devLE items).filter (fun x => decide (sortKey x = k)) =
      items.filter (fun x => decide (sortKey x = k)) := by
  set p : DeviceItem → Bool := fun x => decide (sortKey x = k) with hp
  have hsub : List.Sublist (items.filter p) items := List.filter_sublist items
  have hpair : (items.filter p).Pairwise devLE := by
    apply pairwise_of_all
    intro x hx y hy
    have hxk : sortKey x = k := by
      have := (List.mem_filter.mp hx).2
      rw [hp] at this
      simpa using this
    have hyk : sortKey y = k := by
      have := (List.mem_filter.mp hy).2
      rw [hp] at this
      simpa using this
    exact devLE_of_sortKey_eq (hxk.trans hyk.symm)
  have hsorted_sub :
      List.Sublist (items.filter p) (List.insertionSort devLE items) :=
    List.sublist_insertionSort hpair hsub
  have heq : (items.filter p).filter p = items.filter p :=
    List.filter_eq_self.mpr (fun a ha => (List.mem_filter.mp ha).2)
  have h2 := hsorted_sub.filter p
  rw [heq] at h2
  have hperm :
      ((List.insertionSort devLE items).filter p).Perm (items.filter p) :=
    (List.perm_insertionSort devLE items).filter p
  exact (h2.eq_of_length hperm.length_eq.symm).symm

/-- The driver of the claim's scenario: discovery reports output "Alpha"
and input "Beta". -/
def exDrv : Driver :=
  { initOk := true, inPorts := [some "Beta"], outPorts := [some "Alpha"],
    inConnectOk := fun _ => true, outConnectOk := fun _ => true }

/-- C4: discovery returns the driver-reported devices as one list in which
every input precedes every output and, within a kind, lowercased names
ascend; ties (equal kind and lowercased name) keep the original driver
order (stability, stated per tie class); and the scenario
`[("Alpha", Output), ("Beta", Input)]` sorts to
`[("Beta", Input), ("Alpha", Output)]`. -/
theorem C4_discovery_sorted (d : Driver) (out : List DeviceItem)
    (hc : collect_devices d = .ok out) :
    out.Pairwise (fun x y =>
      (x.key.kind = .Input ∧ y.key.kind = .Output) ∨
      (x.key.kind = y.key.kind ∧ lowerName x ≤ lowerName y)) ∧
    out.Perm (inputItems d ++ outputItems d) ∧
    (∀ k : Nat × String,
      out.filter (fun x => decide (sortKey x = k)) =
        (inputItems d ++ outputItems d).filter
          (fun x => decide (sortKey x = k))) ∧
    collect_devices exDrv = .ok
      [{ key := { name := "Beta", kind := .Input }, index := 0 },
       { key := { name := "Alpha", kind := .Output }, index := 0 }] := by
  have hout : out = List.insertionSort devLE (inputItems d ++ outputItems d) := by
    unfold collect_devices at hc
    split at hc
    · exact (Except.ok.inj hc).symm
    · simp at hc
  subst hout
  refine ⟨?_, ?_, ?_, ?_⟩
  · exact (List.sorted_insertionSort devLE _).imp
      (fun h => (devLE_iff _ _).mp h)
  · exact List.perm_insertionSort devLE _
  · exact fun k => insertionSort_filter_key _ k
  · rfl

theorem C4_discovery_sorted_witness :
    collect_devices exDrv = .ok
      [{ key := { name := "Beta", kind := .Input }, index := 0 },
       { key := { name := "Alpha", kind := .Output }, index := 0 }] :=
  (C4_discovery_sorted exDrv
      [{ key := { name := "Beta", kind := .Input }, index := 0 },
       { key := { name := "Alpha", kind := .Output }, index := 0 }]
      rfl).2.2.2
